import Mathlib

/-
  Verification of the SharkeeHaptics intensity-to-haptic-waveform mapping
  engine against its firmware sources.

  Floating-point values are modelled as exact rationals extended with a NaN
  marker (type F below); IEEE comparisons with NaN are false, and NaN
  propagates through arithmetic, exactly as in the firmware.  The power
  function powf used by the gamma mapper is transcendental, so the gamma
  path of the realtime variants is modelled over the real numbers with rpow.
  Machine timestamps (millis) are modelled as naturals with explicit 32-bit
  wraparound subtraction.
-/

namespace Sharkee

/-- Model of an IEEE float: either NaN or an exact rational value. -/
inductive F where
  | nan : F
  | val : ℚ → F
deriving DecidableEq

/-- IEEE less-than: any comparison with NaN is false. -/
def F.flt : F → F → Bool
  | F.val a, F.val b => decide (a < b)
  | _, _ => false

/-- Subtraction; NaN propagates. -/
def F.fsub : F → F → F
  | F.val a, F.val b => F.val (a - b)
  | _, _ => F.nan

/-- Division; NaN propagates.  Division by zero is mapped to NaN (the
firmware never divides by zero: the only divisor is 1 - 0.05 = 0.95). -/
def F.fdiv : F → F → F
  | F.val a, F.val b => if b = 0 then F.nan else F.val (a / b)
  | _, _ => F.nan

/-- The Arduino constrain macro on rationals:
amt lt low gives low, amt gt high gives high, otherwise amt. -/
def constrainQ (amt low high : ℚ) : ℚ :=
  if amt < low then low else if high < amt then high else amt

/-- The Arduino constrain macro on the float model.  Both comparisons are
false for NaN, so constrain of NaN returns NaN, as in IEEE arithmetic. -/
def constrainF (amt low high : F) : F :=
  if F.flt amt low then low else if F.flt high amt then high else amt

/-- C roundf on an exact rational: round to nearest, ties away from zero. -/
def roundQ (q : ℚ) : ℤ :=
  if 0 ≤ q then ⌊q + 1/2⌋ else ⌈q - 1/2⌉

/-! Constants shared by the firmware variants
    (Sharkee_Haptics.ino lines 67-91, part_000 lines 32-46,
     part_001 lines 41-48, part_003 lines 32-56). -/

def MIN_INTENSITY_THRESHOLD : ℚ := 5/100

def WAVEFORM_RTP_THRESHOLD : ℚ := 35/100

def REALTIME_TIMEOUT_MS : ℕ := 500

def LRA_SHARP_CLICK : ℕ := 1

def DRV2605_MODE_REALTIME : ℕ := 5

def PET_EFFECT_ARRAY : List ℕ := [1, 3, 5, 8, 11, 15, 20, 24, 28, 30]

def FORCE_EFFECT_ARRAY : List ℕ := [4, 1, 11, 18, 37, 43, 47, 49, 64, 66]

def IMPACT_EFFECT_ARRAY : List ℕ := [68, 70, 72, 75, 78, 80, 82, 85, 87, 89]

def FX_IMPACT_HIT : ℕ := 49

def FX_RESIDUAL_HUM : ℕ := 37

def FX_PAUSE : ℕ := 255

def SEQUENCE_TRIGGER_INDEX : ℤ := 9

def MIN_GAIN_VALUE : ℕ := 20

def MAX_GAIN_VALUE : ℕ := 127

/-- The three texture zones of Sharkee_Haptics.ino. -/
inductive Zone where
  | pet : Zone
  | force : Zone
  | impact : Zone
deriving DecidableEq

/-- Effect table owned by each zone (Sharkee_Haptics.ino lines 71-80). -/
def Zone.effects : Zone → List ℕ
  | Zone.pet => PET_EFFECT_ARRAY
  | Zone.force => FORCE_EFFECT_ARRAY
  | Zone.impact => IMPACT_EFFECT_ARRAY

/-- Zone selection from Sharkee_Haptics.ino lines 166-184: normalized
intensity at most 0.33 selects pet, at most 0.66 selects force, else
impact.  Boundary values resolve to the lower zone. -/
def zoneFor (n : ℚ) : Zone :=
  if n ≤ 33/100 then Zone.pet
  else if n ≤ 66/100 then Zone.force
  else Zone.impact

/-- Normalization from Sharkee_Haptics.ino lines 161-164: rescale the
span from the threshold to 1.0 back onto the range 0.0 to 1.0. -/
def normalizedOf (y : ℚ) : ℚ :=
  constrainQ ((y - MIN_INTENSITY_THRESHOLD) / (1 - MIN_INTENSITY_THRESHOLD)) 0 1

/-- Effect index from Sharkee_Haptics.ino line 187: the cast to int of
roundf applied to normalized intensity times (number of effects - 1). -/
def effectIndexFor (n : ℚ) (numEffects : ℕ) : ℤ :=
  roundQ (n * ((numEffects : ℚ) - 1))

/-- Gain computation from Sharkee_Haptics.ino lines 191-192 (and, with
other bounds, part_003 lines 121-123): gain is roundf of normalized
intensity times the gain range, cast to uint8, plus the minimum gain,
stored in a uint8 and then passed through the constrain macro.  The two
mod-256 reductions model the uint8 narrowing; for normalized intensity in
the unit interval neither reduction nor the constrain changes the value. -/
def gainCalc (minG maxG : ℕ) (n : ℚ) : ℕ :=
  let r : ℕ := (roundQ (n * ((maxG : ℚ) - (minG : ℚ)))).toNat % 256
  let g : ℕ := (r + minG) % 256
  if g < minG then minG else if maxG < g then maxG else g

/-- A drive command of the library-effect variants: either the stop
behavior (gain off and standby) or a waveform sequence (the register
slots written before GO) played at a given gain. -/
inductive LibCmd where
  | stop : LibCmd
  | play : List ℕ → ℕ → LibCmd
deriving DecidableEq

/-- Sections C, D and E of setMotorLibraryEffect
(Sharkee_Haptics.ino lines 166-212), for a non-NaN normalized intensity:
select the zone, compute the effect index and the gain, and emit either
the complex impact sequence (at the trigger index in the impact zone) or
the single zone-array effect followed by the terminating stop marker. -/
def libraryCommandFor (n : ℚ) : LibCmd :=
  let zone := zoneFor n
  let idx := effectIndexFor n zone.effects.length
  let gain := gainCalc MIN_GAIN_VALUE MAX_GAIN_VALUE n
  if idx = SEQUENCE_TRIGGER_INDEX ∧ zone = Zone.impact then
    LibCmd.play [FX_IMPACT_HIT, FX_PAUSE, FX_RESIDUAL_HUM, 0] gain
  else
    LibCmd.play [zone.effects.getD idx.toNat 0, 0] gain

/-- setMotorLibraryEffect from Sharkee_Haptics.ino lines 151-213.
The input is first constrained to the unit interval (NaN survives the
constrain).  If the strict comparison with the threshold holds the stop
behavior is emitted.  Otherwise the input is normalized; if the
normalized value is NaN the firmware evaluates the cast to int of
roundf(NaN), which is undefined behavior, modelled as none. -/
def setMotorLibraryEffect (intensity0 : F) : Option LibCmd :=
  let intensity := constrainF intensity0 (F.val 0) (F.val 1)
  if F.flt intensity (F.val MIN_INTENSITY_THRESHOLD) then
    some LibCmd.stop
  else
    match constrainF
        (F.fdiv (F.fsub intensity (F.val MIN_INTENSITY_THRESHOLD))
                (F.val (1 - MIN_INTENSITY_THRESHOLD)))
        (F.val 0) (F.val 1) with
    | F.nan => none
    | F.val n => some (libraryCommandFor n)

/-- Integer-argument conversion of the OSC input handler
(Sharkee_Haptics.ino lines 259-267, identical in part_000 lines 187-194,
part_002 lines 603-611 and part_003 lines 167-175): the local intensity
starts at 0.0, values above 1 and at most 255 are byte-scaled, otherwise
values between 0 and 100 are percentage-scaled, anything else leaves 0. -/
def oscIntToIntensity (v : ℤ) : ℚ :=
  if 1 < v ∧ v ≤ 255 then (v : ℚ) / 255
  else if 0 ≤ v ∧ v ≤ 100 then (v : ℚ) / 100
  else 0

/-! ## Realtime variants (part_000 blended, part_001 router)

The realtime drive path applies powf, a transcendental function, so it is
modelled over the real numbers; branch conditions there never involve NaN
inputs in the claims below, which quantify over real inputs. -/

/-- The Arduino constrain macro on reals. -/
noncomputable def constrainR (amt low high : ℝ) : ℝ :=
  if amt < low then low else if high < amt then high else amt

/-- C roundf on reals: round to nearest, ties away from zero. -/
noncomputable def roundR (x : ℝ) : ℤ :=
  if 0 ≤ x then ⌊x + 1/2⌋ else ⌈x - 1/2⌉

/-- applyGammaMapping from part_001 lines 136-140 (identical in part_000
lines 74-78): constrain the intensity to the unit interval, return it
unchanged if gamma mapping is disabled, else raise it to the gamma
exponent (powf modelled by real rpow).  The runtime-configurable globals
USE_GAMMA_MAPPING and GAMMA are passed as parameters. -/
noncomputable def applyGammaMapping (useGamma : Bool) (gamma : ℝ) (intensity0 : ℝ) : ℝ :=
  let intensity := constrainR intensity0 0 1
  if useGamma = false then intensity else intensity ^ gamma

/-- intensityToRealtimeValue from part_001 lines 142-146: gamma-correct
the intensity, constrain the corrected value to the unit interval, scale
by 255 and round (the uint8 cast is the identity on the result, which
lies between 0 and 255). -/
noncomputable def intensityToRealtimeValue (useGamma : Bool) (gamma : ℝ) (intensity : ℝ) : ℤ :=
  let corrected := applyGammaMapping useGamma gamma intensity
  roundR (constrainR corrected 0 1 * 255)

/-- One register-level write to the DRV2605 driver. -/
inductive DrvWrite where
  | setRealtimeValue : ℤ → DrvWrite
  | setMode : ℕ → DrvWrite
  | setWaveform : ℕ → ℕ → DrvWrite
  | go : DrvWrite
  | stopPlayback : DrvWrite
deriving DecidableEq

/-- Mutable globals of the blended variant part_000: isMotorRunning,
isInRealtimeMode and lastReceivedMs (lines 30-37). -/
structure BlendState where
  isMotorRunning : Bool
  isInRealtimeMode : Bool
  lastReceivedMs : ℕ
deriving DecidableEq

/-- Mutable globals of the router variant part_001: isMotorRunning and
lastReceivedMs (lines 40-45); this variant has no library mode. -/
structure RTState where
  isMotorRunning : Bool
  lastReceivedMs : ℕ
deriving DecidableEq

/-- Unsigned 32-bit subtraction, as computed by now - lastReceivedMs on
the unsigned long millis counter. -/
def usub32 (a b : ℕ) : ℕ :=
  ((a % 2 ^ 32) + 2 ^ 32 - (b % 2 ^ 32)) % 2 ^ 32

/-- setMotorBlendedRTP from part_000 lines 93-150.  The input is
constrained and then inverted (1 - intensity).  Below the minimum
threshold: stop (with a zero-amplitude write first when leaving realtime
mode), then a stopPlayback call.  Between the thresholds: waveform click
mode (leaving realtime mode first issues a zero-amplitude write before
the mode change).  At or above the rumble threshold: enter realtime mode
if needed (mode write then stopPlayback, with no zero-amplitude write)
and stream the gamma-corrected amplitude.  Returns the new state and the
list of driver writes in program order. -/
noncomputable def setMotorBlendedRTP (useGamma : Bool) (gamma : ℝ)
    (s : BlendState) (now : ℕ) (intensity0 : ℝ) : BlendState × List DrvWrite :=
  let intensity1 := constrainR intensity0 0 1
  let intensity := 1 - intensity1
  if intensity < (MIN_INTENSITY_THRESHOLD : ℝ) then
    if s.isMotorRunning then
      ({ isMotorRunning := false, isInRealtimeMode := false,
         lastReceivedMs := s.lastReceivedMs },
       (if s.isInRealtimeMode then [DrvWrite.setRealtimeValue 0] else []) ++
         [DrvWrite.setMode 0, DrvWrite.stopPlayback])
    else
      (s, [DrvWrite.stopPlayback])
  else if intensity < (WAVEFORM_RTP_THRESHOLD : ℝ) then
    ({ isMotorRunning := true, isInRealtimeMode := false, lastReceivedMs := now },
     (if s.isInRealtimeMode then
        [DrvWrite.setRealtimeValue 0, DrvWrite.setMode 1] else []) ++
       [DrvWrite.setWaveform 0 LRA_SHARP_CLICK, DrvWrite.setWaveform 1 0,
        DrvWrite.go])
  else
    let amplitude := roundR (applyGammaMapping useGamma gamma intensity * 255)
    ({ isMotorRunning := true, isInRealtimeMode := true, lastReceivedMs := now },
     (if s.isInRealtimeMode = false then
        [DrvWrite.setMode DRV2605_MODE_REALTIME, DrvWrite.stopPlayback] else []) ++
       [DrvWrite.setRealtimeValue amplitude])

/-- checkRealtimeTimeout from part_000 lines 153-165 (identical logic in
part_002 lines 570-581): only when the motor is running in continuous
realtime mode and the unsigned elapsed time exceeds the timeout, write
amplitude zero, write standby mode, and clear both flags. -/
def checkRealtimeTimeout (s : BlendState) (now : ℕ) : BlendState × List DrvWrite :=
  if s.isMotorRunning ∧ s.isInRealtimeMode then
    if REALTIME_TIMEOUT_MS < usub32 now s.lastReceivedMs then
      ({ isMotorRunning := false, isInRealtimeMode := false,
         lastReceivedMs := s.lastReceivedMs },
       [DrvWrite.setRealtimeValue 0, DrvWrite.setMode 0])
    else (s, [])
  else (s, [])

/-- setMotorRealtime from part_001 lines 148-167.  Below the threshold:
if the motor is running, write amplitude zero then standby and clear the
running flag; otherwise do nothing.  The early return means
lastReceivedMs is never touched on this path.  At or above the
threshold: enter realtime mode if stopped, then stream the
gamma-corrected amplitude and record the receipt timestamp. -/
noncomputable def setMotorRealtime (useGamma : Bool) (gamma : ℝ)
    (s : RTState) (now : ℕ) (intensity0 : ℝ) : RTState × List DrvWrite :=
  let intensity := constrainR intensity0 0 1
  if intensity < (MIN_INTENSITY_THRESHOLD : ℝ) then
    if s.isMotorRunning then
      ({ isMotorRunning := false, lastReceivedMs := s.lastReceivedMs },
       [DrvWrite.setRealtimeValue 0, DrvWrite.setMode 0])
    else (s, [])
  else
    let speed := intensityToRealtimeValue useGamma gamma intensity
    ({ isMotorRunning := true, lastReceivedMs := now },
     (if s.isMotorRunning = false then [DrvWrite.setMode DRV2605_MODE_REALTIME]
      else []) ++ [DrvWrite.setRealtimeValue speed])

/-! ## Helper lemmas -/

lemma constrainF_val (x a b : ℚ) :
    constrainF (F.val x) (F.val a) (F.val b) = F.val (constrainQ x a b) := by
  simp only [constrainF, constrainQ, F.flt]
  split_ifs with h1 h2 <;> simp_all

lemma roundQ_of_nonneg (q : ℚ) (h : 0 ≤ q) : roundQ q = ⌊q + 1/2⌋ := if_pos h

lemma roundQ_nonneg (q : ℚ) (h : 0 ≤ q) : 0 ≤ roundQ q := by
  rw [roundQ_of_nonneg q h]
  exact Int.le_floor.2 (by push_cast; linarith)

lemma roundQ_le (q : ℚ) (m : ℤ) (h : 0 ≤ q) (h2 : q ≤ (m : ℚ)) : roundQ q ≤ m := by
  rw [roundQ_of_nonneg q h]
  have h3 : (⌊q + 1/2⌋ : ℤ) ≤ ⌊(1/2 : ℚ) + (m : ℚ)⌋ :=
    Int.floor_le_floor (by linarith)
  rwa [Int.floor_add_int (1/2 : ℚ) m, show ⌊(1/2 : ℚ)⌋ = 0 by norm_num,
    zero_add] at h3

lemma roundQ_mono (a b : ℚ) (ha : 0 ≤ a) (hab : a ≤ b) :
    roundQ a ≤ roundQ b := by
  rw [roundQ_of_nonneg a ha, roundQ_of_nonneg b (le_trans ha hab)]
  exact Int.floor_le_floor (by linarith)

/-- Evaluation of setMotorLibraryEffect on a non-NaN input: it is the
stop command strictly below the threshold, otherwise the command built
from the normalized intensity. -/
lemma setMotorLibraryEffect_val (x : ℚ) :
    setMotorLibraryEffect (F.val x)
      = if constrainQ x 0 1 < MIN_INTENSITY_THRESHOLD then some LibCmd.stop
        else some (libraryCommandFor (normalizedOf (constrainQ x 0 1))) := by
  have h95 : (1 : ℚ) - MIN_INTENSITY_THRESHOLD ≠ 0 := by
    norm_num [MIN_INTENSITY_THRESHOLD]
  simp only [setMotorLibraryEffect, constrainF_val, F.flt, F.fsub, F.fdiv,
    if_neg h95, normalizedOf, decide_eq_true_eq]

lemma zoneFor_effects_length (n : ℚ) : (zoneFor n).effects.length = 10 := by
  unfold zoneFor
  split_ifs <;> rfl

/-- For any rational x, the normalized intensity lies in the unit
interval. -/
lemma normalizedOf_mem (y : ℚ) : 0 ≤ normalizedOf y ∧ normalizedOf y ≤ 1 := by
  unfold normalizedOf constrainQ
  split_ifs <;> constructor <;> linarith

/-- The uint8 narrowing and the final constrain in gainCalc are the
identity when the normalized intensity lies in the unit interval. -/
lemma gainCalc_eq (minG maxG : ℕ) (n : ℚ) (hmm : minG ≤ maxG) (hmax : maxG ≤ 255)
    (h0 : 0 ≤ n) (h1 : n ≤ 1) :
    gainCalc minG maxG n = (roundQ (n * ((maxG : ℚ) - (minG : ℚ)))).toNat + minG := by
  have hd0 : (0 : ℚ) ≤ (maxG : ℚ) - (minG : ℚ) := by
    have := (Nat.cast_le (α := ℚ)).2 hmm
    linarith
  have hq0 : 0 ≤ n * ((maxG : ℚ) - (minG : ℚ)) := mul_nonneg h0 hd0
  have hub : n * ((maxG : ℚ) - (minG : ℚ)) ≤ (((maxG - minG : ℕ) : ℤ) : ℚ) := by
    push_cast [Nat.cast_sub hmm]
    nlinarith
  have hr0 : 0 ≤ roundQ (n * ((maxG : ℚ) - (minG : ℚ))) := roundQ_nonneg _ hq0
  have hrle : roundQ (n * ((maxG : ℚ) - (minG : ℚ))) ≤ ((maxG - minG : ℕ) : ℤ) :=
    roundQ_le _ _ hq0 hub
  have htn : (roundQ (n * ((maxG : ℚ) - (minG : ℚ)))).toNat ≤ maxG - minG :=
    Int.toNat_le.2 hrle
  simp only [gainCalc]
  split_ifs <;> omega

lemma roundQ_gain_bounds (minG maxG : ℕ) (n : ℚ) (hmm : minG ≤ maxG)
    (h0 : 0 ≤ n) (h1 : n ≤ 1) :
    0 ≤ roundQ (n * ((maxG : ℚ) - (minG : ℚ))) ∧
    roundQ (n * ((maxG : ℚ) - (minG : ℚ))) ≤ ((maxG - minG : ℕ) : ℤ) := by
  have hd0 : (0 : ℚ) ≤ (maxG : ℚ) - (minG : ℚ) := by
    have := (Nat.cast_le (α := ℚ)).2 hmm
    linarith
  have hq0 : 0 ≤ n * ((maxG : ℚ) - (minG : ℚ)) := mul_nonneg h0 hd0
  refine ⟨roundQ_nonneg _ hq0, roundQ_le _ _ hq0 ?_⟩
  push_cast [Nat.cast_sub hmm]
  nlinarith

/-! ## Claims C2, C3, C5, C6, C7, C9 -/

/-- C2: the totality claim fails at NaN.  NaN survives the constrain
(both IEEE comparisons false) and fails the strict below-threshold test
(also false for NaN), so the firmware does not take the stop path;
instead it reaches the zone selection with a NaN normalized intensity
and evaluates the int cast of roundf(NaN), which is undefined behavior
(modelled as none), rather than producing the stop command the
specification requires. -/
theorem nan_input_reaches_undefined_index :
    setMotorLibraryEffect F.nan = none ∧
    setMotorLibraryEffect F.nan ≠ some LibCmd.stop := by
  have h : setMotorLibraryEffect F.nan = none := rfl
  exact ⟨h, by rw [h]; exact fun hc => Option.noConfusion hc⟩

/-- C3 counterexample: at effective intensity exactly equal to
MIN_INTENSITY_THRESHOLD the strict comparison in the stop branch is
false, so the engine emits a play command (pet effect 1, minimum gain),
not the stop behavior the claim asserts. -/
theorem threshold_equal_counterexample :
    setMotorLibraryEffect (F.val MIN_INTENSITY_THRESHOLD)
      = some (LibCmd.play [1, 0] 20) ∧
    some (LibCmd.play [1, 0] 20) ≠ some LibCmd.stop := by
  constructor
  · norm_num [setMotorLibraryEffect, constrainF, F.flt, F.fsub, F.fdiv,
      libraryCommandFor, zoneFor, effectIndexFor, gainCalc, roundQ,
      Zone.effects, MIN_INTENSITY_THRESHOLD, MIN_GAIN_VALUE, MAX_GAIN_VALUE,
      SEQUENCE_TRIGGER_INDEX, PET_EFFECT_ARRAY]
  · simp

/-- C3 (amended): effective intensity strictly below the threshold
produces the stop behavior; effective intensity at the threshold or
above produces a non-stop drive command: the library variant emits a
play command and the realtime router variant ends its writes with a
realtime amplitude write. -/
theorem threshold_strict_below_stop (x : ℚ) (y : ℝ) (useG : Bool) (γ : ℝ)
    (s : RTState) (now : ℕ) :
    (constrainQ x 0 1 < MIN_INTENSITY_THRESHOLD →
       setMotorLibraryEffect (F.val x) = some LibCmd.stop) ∧
    (MIN_INTENSITY_THRESHOLD ≤ constrainQ x 0 1 →
       setMotorLibraryEffect (F.val x)
         = some (libraryCommandFor (normalizedOf (constrainQ x 0 1))) ∧
       libraryCommandFor (normalizedOf (constrainQ x 0 1)) ≠ LibCmd.stop) ∧
    (((MIN_INTENSITY_THRESHOLD : ℚ) : ℝ) ≤ constrainR y 0 1 →
       ∃ w, (setMotorRealtime useG γ s now y).2
         = w ++ [DrvWrite.setRealtimeValue
             (intensityToRealtimeValue useG γ (constrainR y 0 1))]) := by
  refine ⟨fun h => ?_, fun h => ?_, fun h => ?_⟩
  · rw [setMotorLibraryEffect_val, if_pos h]
  · rw [setMotorLibraryEffect_val, if_neg (not_lt.2 h)]
    refine ⟨rfl, ?_⟩
    simp only [libraryCommandFor]
    split_ifs <;> simp
  · simp only [setMotorRealtime, if_neg (not_lt.2 h)]
    exact ⟨_, rfl⟩

/-- C5: at normalized intensity exactly 0.33 the pet zone is selected
and at exactly 0.66 the force zone is selected; boundary values resolve
to the lower zone because the comparisons are non-strict.  A raw input
of 0.3635 normalizes to exactly 0.33 and plays the pet-array effect 8,
and a raw input of 0.677 normalizes to exactly 0.66 and plays the
force-array effect 47. -/
theorem zone_boundary_lower (n : ℚ) :
    zoneFor (33/100) = Zone.pet ∧
    zoneFor (66/100) = Zone.force ∧
    (n ≤ 33/100 → zoneFor n = Zone.pet) ∧
    (33/100 < n → n ≤ 66/100 → zoneFor n = Zone.force) ∧
    setMotorLibraryEffect (F.val (3635/10000)) = some (LibCmd.play [8, 0] 55) ∧
    setMotorLibraryEffect (F.val (677/1000)) = some (LibCmd.play [47, 0] 91) := by
  refine ⟨by norm_num [zoneFor], by norm_num [zoneFor], fun h => ?_,
    fun h1 h2 => ?_, ?_, ?_⟩
  · exact if_pos h
  · unfold zoneFor
    rw [if_neg (not_le.2 h1), if_pos h2]
  · norm_num [setMotorLibraryEffect, constrainF, F.flt, F.fsub, F.fdiv,
      libraryCommandFor, zoneFor, effectIndexFor, gainCalc, roundQ,
      Zone.effects, MIN_INTENSITY_THRESHOLD, MIN_GAIN_VALUE, MAX_GAIN_VALUE,
      SEQUENCE_TRIGGER_INDEX, PET_EFFECT_ARRAY]
    exact ⟨rfl, rfl⟩
  · norm_num [setMotorLibraryEffect, constrainF, F.flt, F.fsub, F.fdiv,
      libraryCommandFor, zoneFor, effectIndexFor, gainCalc, roundQ,
      Zone.effects, MIN_INTENSITY_THRESHOLD, MIN_GAIN_VALUE, MAX_GAIN_VALUE,
      SEQUENCE_TRIGGER_INDEX, FORCE_EFFECT_ARRAY]
    exact ⟨rfl, rfl⟩

/-- C6: above the threshold, an effect index of 9 in the impact zone
emits the complex multi-step sequence (impact hit, pause, residual hum,
stop marker) with the computed gain; any other index or zone emits the
single zone-array effect followed by the stop marker, with the same
computed gain. -/
theorem sequence_trigger_top_zone (x : ℚ)
    (h : MIN_INTENSITY_THRESHOLD ≤ constrainQ x 0 1) :
    (effectIndexFor (normalizedOf (constrainQ x 0 1)) 10 = SEQUENCE_TRIGGER_INDEX →
       zoneFor (normalizedOf (constrainQ x 0 1)) = Zone.impact →
       setMotorLibraryEffect (F.val x)
         = some (LibCmd.play [FX_IMPACT_HIT, FX_PAUSE, FX_RESIDUAL_HUM, 0]
             (gainCalc MIN_GAIN_VALUE MAX_GAIN_VALUE
               (normalizedOf (constrainQ x 0 1))))) ∧
    (effectIndexFor (normalizedOf (constrainQ x 0 1)) 10 ≠ SEQUENCE_TRIGGER_INDEX ∨
       zoneFor (normalizedOf (constrainQ x 0 1)) ≠ Zone.impact →
       setMotorLibraryEffect (F.val x)
         = some (LibCmd.play
             [(zoneFor (normalizedOf (constrainQ x 0 1))).effects.getD
                 (effectIndexFor (normalizedOf (constrainQ x 0 1)) 10).toNat 0, 0]
             (gainCalc MIN_GAIN_VALUE MAX_GAIN_VALUE
               (normalizedOf (constrainQ x 0 1))))) := by
  have hn := setMotorLibraryEffect_val x
  rw [if_neg (not_lt.2 h)] at hn
  constructor
  · intro hidx hz
    rw [hn]
    simp only [libraryCommandFor, zoneFor_effects_length]
    rw [if_pos ⟨hidx, hz⟩]
  · intro hor
    rw [hn]
    simp only [libraryCommandFor, zoneFor_effects_length]
    rw [if_neg (fun hc => hor.elim (fun h1 => h1 hc.1) (fun h2 => h2 hc.2))]

/-- C7: for normalized intensity in the unit interval the computed gain
equals round of the intensity times the gain range, plus the minimum
gain, clamped to the gain interval; and the gain is monotone in the
normalized intensity. -/
theorem gain_formula_and_monotone (minG maxG : ℕ) (n n1 n2 : ℚ)
    (hmm : minG ≤ maxG) (hmax : maxG ≤ 255) :
    (0 ≤ n → n ≤ 1 →
      (gainCalc minG maxG n : ℤ)
        = max (minG : ℤ) (min (maxG : ℤ)
            (roundQ (n * ((maxG : ℚ) - (minG : ℚ))) + (minG : ℤ)))) ∧
    (0 ≤ n1 → n1 ≤ n2 → n2 ≤ 1 →
      gainCalc minG maxG n1 ≤ gainCalc minG maxG n2) := by
  constructor
  · intro h0 h1
    rw [gainCalc_eq minG maxG n hmm hmax h0 h1]
    obtain ⟨hr0, hrle⟩ := roundQ_gain_bounds minG maxG n hmm h0 h1
    have hrle2 : roundQ (n * ((maxG : ℚ) - (minG : ℚ))) ≤ (maxG : ℤ) - (minG : ℤ) := by
      rwa [Nat.cast_sub hmm] at hrle
    push_cast [Int.toNat_of_nonneg hr0]
    omega
  · intro h0 h12 h21
    have h02 : 0 ≤ n2 := le_trans h0 h12
    have h11 : n1 ≤ 1 := le_trans h12 h21
    rw [gainCalc_eq minG maxG n1 hmm hmax h0 h11,
        gainCalc_eq minG maxG n2 hmm hmax h02 h21]
    have hd0 : (0 : ℚ) ≤ (maxG : ℚ) - (minG : ℚ) := by
      have := (Nat.cast_le (α := ℚ)).2 hmm
      linarith
    have hmono : roundQ (n1 * ((maxG : ℚ) - (minG : ℚ)))
        ≤ roundQ (n2 * ((maxG : ℚ) - (minG : ℚ))) :=
      roundQ_mono _ _ (mul_nonneg h0 hd0) (by nlinarith)
    omega

/-- C9 counterexample: the integer value 100 lies in the claimed
percentage range 0..100, but the byte-scaling branch takes precedence,
so the conversion yields 100/255 = 20/51, not 100/100 = 1. -/
theorem int_conversion_counterexample :
    oscIntToIntensity 100 = 20/51 ∧ (20/51 : ℚ) ≠ 100/100 := by
  constructor
  · norm_num [oscIntToIntensity]
  · norm_num

/-- C9 (amended): integers from 2 to 255 are byte-scaled (the
byte-scaling branch takes precedence on the overlap 2..100), only 0 and
1 are percentage-scaled, and integers outside 0..255 yield intensity
zero. -/
theorem int_conversion_precedence (v : ℤ) :
    (1 < v → v ≤ 255 → oscIntToIntensity v = (v : ℚ) / 255) ∧
    (v = 0 ∨ v = 1 → oscIntToIntensity v = (v : ℚ) / 100) ∧
    (v < 0 ∨ 255 < v → oscIntToIntensity v = 0) := by
  refine ⟨fun h1 h2 => if_pos ⟨h1, h2⟩, fun h => ?_, fun h => ?_⟩
  · rcases h with rfl | rfl <;> norm_num [oscIntToIntensity]
  · unfold oscIntToIntensity
    rw [if_neg (by omega), if_neg (by omega)]

/-! ## Claims C1 and C10 -/

lemma usub32_eq (a b : ℕ) (h : b ≤ a) (h2 : a - b < 2 ^ 32) :
    usub32 a b = a - b := by
  have hM : (2 : ℕ) ^ 32 = 4294967296 := by norm_num
  simp only [usub32, hM] at *
  omega

/-- C1: whenever the motor is running in continuous realtime mode and
the elapsed time since the last received update exceeds
REALTIME_TIMEOUT_MS, the guard writes realtime amplitude zero, writes
standby mode, and clears both flags, without any stop command arriving;
and when the device is not in realtime mode (library playback), the
guard changes nothing and writes nothing. -/
theorem timeout_guard_forces_standby (s : BlendState) (now : ℕ) :
    (s.isMotorRunning = true → s.isInRealtimeMode = true →
       s.lastReceivedMs ≤ now → now - s.lastReceivedMs < 2 ^ 32 →
       REALTIME_TIMEOUT_MS < now - s.lastReceivedMs →
       checkRealtimeTimeout s now
         = ({ isMotorRunning := false, isInRealtimeMode := false,
              lastReceivedMs := s.lastReceivedMs },
            [DrvWrite.setRealtimeValue 0, DrvWrite.setMode 0])) ∧
    (s.isInRealtimeMode = false → checkRealtimeTimeout s now = (s, [])) := by
  constructor
  · intro hr hm hle hlt htm
    unfold checkRealtimeTimeout
    rw [if_pos ⟨hr, hm⟩,
      if_pos (by rwa [usub32_eq now s.lastReceivedMs hle hlt])]
  · intro hm
    unfold checkRealtimeTimeout
    rw [if_neg (fun hc => absurd hc.2 (by simp [hm]))]

theorem timeout_guard_forces_standby_witness :
    checkRealtimeTimeout ⟨true, true, 0⟩ 501
      = (⟨false, false, 0⟩, [DrvWrite.setRealtimeValue 0, DrvWrite.setMode 0]) :=
  (timeout_guard_forces_standby ⟨true, true, 0⟩ 501).1 rfl rfl
    (by norm_num) (by norm_num) (by norm_num [REALTIME_TIMEOUT_MS])

/-- C10: a below-threshold update while the motor is already stopped
performs no driver writes and leaves the state unchanged; a
below-threshold update while running performs only the stop writes; and
on the below-threshold path lastReceivedMs is never refreshed, so stop
inputs never extend the watchdog deadline. -/
theorem stop_path_frame (useG : Bool) (γ : ℝ) (s : RTState) (now : ℕ) (x : ℝ)
    (h : constrainR x 0 1 < ((MIN_INTENSITY_THRESHOLD : ℚ) : ℝ)) :
    (s.isMotorRunning = false → setMotorRealtime useG γ s now x = (s, [])) ∧
    (s.isMotorRunning = true →
       setMotorRealtime useG γ s now x
         = ({ isMotorRunning := false, lastReceivedMs := s.lastReceivedMs },
            [DrvWrite.setRealtimeValue 0, DrvWrite.setMode 0])) ∧
    (setMotorRealtime useG γ s now x).1.lastReceivedMs = s.lastReceivedMs := by
  have hmain : setMotorRealtime useG γ s now x
      = if s.isMotorRunning then
          ({ isMotorRunning := false, lastReceivedMs := s.lastReceivedMs },
           [DrvWrite.setRealtimeValue 0, DrvWrite.setMode 0])
        else (s, []) := by
    simp only [setMotorRealtime, if_pos h]
  refine ⟨fun hr => ?_, fun hr => ?_, ?_⟩
  · rw [hmain]
    simp [hr]
  · rw [hmain]
    simp [hr]
  · rw [hmain]
    cases hs : s.isMotorRunning <;> simp [hs]

theorem stop_path_frame_witness :
    setMotorRealtime true 2.2 ⟨false, 5⟩ 99 (1/100) = (⟨false, 5⟩, []) :=
  (stop_path_frame true 2.2 ⟨false, 5⟩ 99 (1/100)
    (by norm_num [constrainR, MIN_INTENSITY_THRESHOLD])).1 rfl

/-! ## Witnesses for the hypothesis-bearing theorems above -/

theorem threshold_strict_below_stop_witness :
    setMotorLibraryEffect (F.val (1/25)) = some LibCmd.stop :=
  (threshold_strict_below_stop (1/25) 0 true 2.2 ⟨false, 0⟩ 0).1
    (by norm_num [constrainQ, MIN_INTENSITY_THRESHOLD])

theorem zone_boundary_lower_witness : zoneFor (1/2) = Zone.force :=
  (zone_boundary_lower (1/2)).2.2.2.1 (by norm_num) (by norm_num)

theorem sequence_trigger_top_zone_witness :
    setMotorLibraryEffect (F.val 1)
      = some (LibCmd.play [FX_IMPACT_HIT, FX_PAUSE, FX_RESIDUAL_HUM, 0]
          (gainCalc MIN_GAIN_VALUE MAX_GAIN_VALUE
            (normalizedOf (constrainQ 1 0 1)))) :=
  (sequence_trigger_top_zone 1
      (by norm_num [constrainQ, MIN_INTENSITY_THRESHOLD])).1
    (by norm_num [normalizedOf, constrainQ, effectIndexFor, roundQ,
      MIN_INTENSITY_THRESHOLD, SEQUENCE_TRIGGER_INDEX])
    (by norm_num [normalizedOf, constrainQ, zoneFor, MIN_INTENSITY_THRESHOLD])

theorem gain_formula_and_monotone_witness :
    gainCalc 20 127 (1/4) ≤ gainCalc 20 127 (3/4) :=
  (gain_formula_and_monotone 20 127 (1/2) (1/4) (3/4)
      (by norm_num) (by norm_num)).2
    (by norm_num) (by norm_num) (by norm_num)

theorem int_conversion_precedence_witness :
    oscIntToIntensity 50 = ((50 : ℤ) : ℚ) / 255 :=
  (int_conversion_precedence 50).1 (by norm_num) (by norm_num)

/-! ## Claims C4 and C8 -/

lemma constrainR_of_mem (x lo hi : ℝ) (h1 : lo ≤ x) (h2 : x ≤ hi) :
    constrainR x lo hi = x := by
  unfold constrainR
  rw [if_neg (not_lt.2 h1), if_neg (not_lt.2 h2)]

/-- C8: the perceptual mapper is the identity on the unit interval when
gamma mapping is disabled and the rpow power function when enabled (for
example, 0.5 to the power 2.2 is within 0.001 of 0.217), and the
realtime amplitude is round of the corrected intensity times 255, a
direct linear mapping onto the 8-bit range. -/
theorem gamma_mapper_and_linear_amplitude (γ x : ℝ)
    (h0 : 0 ≤ x) (h1 : x ≤ 1) (hγ0 : 1/2 ≤ γ) (hγ1 : γ ≤ 6) :
    applyGammaMapping false γ x = x ∧
    applyGammaMapping true γ x = x ^ γ ∧
    intensityToRealtimeValue true γ x = roundR (x ^ γ * 255) ∧
    intensityToRealtimeValue false γ x = roundR (x * 255) ∧
    |applyGammaMapping true (22/10) (1/2) - 217/1000| < 1/1000 := by
  have hcx : constrainR x 0 1 = x := constrainR_of_mem x 0 1 h0 h1
  have hid : applyGammaMapping false γ x = x := by
    simp only [applyGammaMapping, hcx]
    simp
  have hgam : applyGammaMapping true γ x = x ^ γ := by
    simp only [applyGammaMapping, hcx]
    simp
  have hγnn : (0 : ℝ) ≤ γ := by linarith
  have hp0 : (0 : ℝ) ≤ x ^ γ := Real.rpow_nonneg h0 γ
  have hp1 : x ^ γ ≤ 1 := Real.rpow_le_one h0 h1 hγnn
  refine ⟨hid, hgam, ?_, ?_, ?_⟩
  · simp only [intensityToRealtimeValue, hgam,
      constrainR_of_mem (x ^ γ) 0 1 hp0 hp1]
  · simp only [intensityToRealtimeValue, hid, constrainR_of_mem x 0 1 h0 h1]
  · have hex : applyGammaMapping true (22/10) (1/2 : ℝ)
        = (1/2 : ℝ) ^ ((22 : ℝ)/10) := by
      simp only [applyGammaMapping,
        constrainR_of_mem (1/2 : ℝ) 0 1 (by norm_num) (by norm_num)]
      simp
    have hc0 : (0 : ℝ) ≤ (1/2 : ℝ) ^ ((22 : ℝ)/10) :=
      Real.rpow_nonneg (by norm_num) _
    have hpow : ((1/2 : ℝ) ^ ((22 : ℝ)/10)) ^ (5 : ℕ) = 1/2048 := by
      rw [← Real.rpow_natCast ((1/2 : ℝ) ^ ((22 : ℝ)/10)) 5,
        ← Real.rpow_mul (by norm_num : (0 : ℝ) ≤ 1/2)]
      rw [show (22 : ℝ)/10 * ((5 : ℕ) : ℝ) = ((11 : ℕ) : ℝ) by norm_num,
        Real.rpow_natCast]
      norm_num
    have hlb : (216/1000 : ℝ) < (1/2 : ℝ) ^ ((22 : ℝ)/10) := by
      by_contra hle
      push_neg at hle
      have h5 : ((1/2 : ℝ) ^ ((22 : ℝ)/10)) ^ (5 : ℕ) ≤ (216/1000 : ℝ) ^ (5 : ℕ) :=
        pow_le_pow_left₀ hc0 hle 5
      rw [hpow] at h5
      norm_num at h5
    have hub : (1/2 : ℝ) ^ ((22 : ℝ)/10) < 218/1000 := by
      by_contra hle
      push_neg at hle
      have h5 : (218/1000 : ℝ) ^ (5 : ℕ) ≤ ((1/2 : ℝ) ^ ((22 : ℝ)/10)) ^ (5 : ℕ) :=
        pow_le_pow_left₀ (by norm_num) hle 5
      rw [hpow] at h5
      norm_num at h5
    rw [hex, abs_lt]
    constructor <;> linarith

theorem gamma_mapper_and_linear_amplitude_witness :
    applyGammaMapping true (22/10) (1/2 : ℝ) = (1/2 : ℝ) ^ ((22 : ℝ)/10) :=
  (gamma_mapper_and_linear_amplitude (22/10) (1/2)
    (by norm_num) (by norm_num) (by norm_num) (by norm_num)).2.1

/-- C4 counterexample: from standby, the raw input 0.2 (inverted
intensity 0.8) transitions the actuator into realtime mode, but the
write list is the mode-register write, the stop-playback command, and
then the nonzero gamma-corrected amplitude: no zero-amplitude command is
written on this transition into realtime mode, refuting the claim that
every transition into or out of realtime mode writes one. -/
theorem into_realtime_no_zero_write_counterexample :
    (setMotorBlendedRTP true (22/10) ⟨false, false, 0⟩ 42 (1/5)).1.isInRealtimeMode
        = true ∧
    DrvWrite.setRealtimeValue 0 ∉
      (setMotorBlendedRTP true (22/10) ⟨false, false, 0⟩ 42 (1/5)).2 := by
  have hc : constrainR (1/5 : ℝ) 0 1 = 1/5 :=
    constrainR_of_mem (1/5 : ℝ) 0 1 (by norm_num) (by norm_num)
  have hinv : (1 : ℝ) - constrainR (1/5 : ℝ) 0 1 = 4/5 := by
    rw [hc]
    norm_num
  have hev : setMotorBlendedRTP true (22/10) ⟨false, false, 0⟩ 42 (1/5)
      = (⟨true, true, 42⟩,
         [DrvWrite.setMode DRV2605_MODE_REALTIME, DrvWrite.stopPlayback,
          DrvWrite.setRealtimeValue
            (roundR (applyGammaMapping true (22/10) (4/5 : ℝ) * 255))]) := by
    simp only [setMotorBlendedRTP, hinv]
    rw [if_neg (by norm_num [MIN_INTENSITY_THRESHOLD]),
      if_neg (by norm_num [WAVEFORM_RTP_THRESHOLD])]
    simp
  have hg : applyGammaMapping true (22/10) (4/5 : ℝ)
      = (4/5 : ℝ) ^ ((22 : ℝ)/10) := by
    simp only [applyGammaMapping,
      constrainR_of_mem (4/5 : ℝ) 0 1 (by norm_num) (by norm_num)]
    simp
  have hlb : (4/5 : ℝ) ^ (3 : ℝ) ≤ (4/5 : ℝ) ^ ((22 : ℝ)/10) :=
    Real.rpow_le_rpow_of_exponent_ge (by norm_num) (by norm_num) (by norm_num)
  have hlb2 : (64/125 : ℝ) ≤ (4/5 : ℝ) ^ ((22 : ℝ)/10) := by
    rw [show (3 : ℝ) = ((3 : ℕ) : ℝ) by norm_num, Real.rpow_natCast] at hlb
    calc (64/125 : ℝ) = (4/5 : ℝ) ^ (3 : ℕ) := by norm_num
      _ ≤ _ := hlb
  have hamp : 1 ≤ roundR (applyGammaMapping true (22/10) (4/5 : ℝ) * 255) := by
    have h0 : (0 : ℝ) ≤ (4/5 : ℝ) ^ ((22 : ℝ)/10) * 255 :=
      mul_nonneg (Real.rpow_nonneg (by norm_num) _) (by norm_num)
    rw [hg]
    unfold roundR
    rw [if_pos h0]
    exact Int.le_floor.2 (by push_cast; linarith)
  refine ⟨by rw [hev], ?_⟩
  rw [hev]
  intro hmem
  simp only [List.mem_cons, List.not_mem_nil, or_false] at hmem
  rcases hmem with h | h | h
  · exact DrvWrite.noConfusion h
  · exact DrvWrite.noConfusion h
  · have h0A := DrvWrite.setRealtimeValue.inj h
    omega

/-- C4 (amended): every transition away from realtime mode issues
exactly one zero-amplitude write, placed before the mode-register write:
this holds on the below-threshold stop path, on the switch to waveform
click mode, and on the timeout path.  Transitions into realtime mode
write the mode register and a stop-playback command but no
zero-amplitude write (the counterexample), and the continuous-drive path
keeps realtime mode with a single amplitude write. -/
theorem realtime_exit_single_zero_bracket (useG : Bool) (γ : ℝ)
    (s : BlendState) (now : ℕ) (x : ℝ) (hrt : s.isInRealtimeMode = true) :
    (1 - constrainR x 0 1 < ((MIN_INTENSITY_THRESHOLD : ℚ) : ℝ) →
       s.isMotorRunning = true →
       setMotorBlendedRTP useG γ s now x
         = ({ isMotorRunning := false, isInRealtimeMode := false,
              lastReceivedMs := s.lastReceivedMs },
            [DrvWrite.setRealtimeValue 0, DrvWrite.setMode 0,
             DrvWrite.stopPlayback])) ∧
    (¬ 1 - constrainR x 0 1 < ((MIN_INTENSITY_THRESHOLD : ℚ) : ℝ) →
       1 - constrainR x 0 1 < ((WAVEFORM_RTP_THRESHOLD : ℚ) : ℝ) →
       setMotorBlendedRTP useG γ s now x
         = ({ isMotorRunning := true, isInRealtimeMode := false,
              lastReceivedMs := now },
            [DrvWrite.setRealtimeValue 0, DrvWrite.setMode 1,
             DrvWrite.setWaveform 0 LRA_SHARP_CLICK, DrvWrite.setWaveform 1 0,
             DrvWrite.go])) ∧
    (¬ 1 - constrainR x 0 1 < ((WAVEFORM_RTP_THRESHOLD : ℚ) : ℝ) →
       (setMotorBlendedRTP useG γ s now x).1.isInRealtimeMode = true ∧
       (setMotorBlendedRTP useG γ s now x).2
         = [DrvWrite.setRealtimeValue
             (roundR (applyGammaMapping useG γ (1 - constrainR x 0 1) * 255))]) ∧
    (s.isMotorRunning = true → REALTIME_TIMEOUT_MS < usub32 now s.lastReceivedMs →
       checkRealtimeTimeout s now
         = ({ isMotorRunning := false, isInRealtimeMode := false,
              lastReceivedMs := s.lastReceivedMs },
            [DrvWrite.setRealtimeValue 0, DrvWrite.setMode 0])) := by
  refine ⟨fun h1 hr => ?_, fun h1 h2 => ?_, fun h2 => ?_, fun hr htm => ?_⟩
  · simp only [setMotorBlendedRTP]
    rw [if_pos h1]
    simp [hr, hrt]
  · simp only [setMotorBlendedRTP]
    rw [if_neg h1, if_pos h2]
    simp [hrt]
  · have h1 : ¬ 1 - constrainR x 0 1 < ((MIN_INTENSITY_THRESHOLD : ℚ) : ℝ) := by
      intro hc
      exact h2 (lt_of_lt_of_le hc
        (by norm_num [MIN_INTENSITY_THRESHOLD, WAVEFORM_RTP_THRESHOLD]))
    simp only [setMotorBlendedRTP]
    rw [if_neg h1, if_neg h2]
    simp [hrt]
  · unfold checkRealtimeTimeout
    rw [if_pos ⟨hr, hrt⟩, if_pos htm]

theorem realtime_exit_single_zero_bracket_witness :
    setMotorBlendedRTP true (22/10) ⟨true, true, 0⟩ 7 1
      = ({ isMotorRunning := false, isInRealtimeMode := false,
           lastReceivedMs := 0 },
         [DrvWrite.setRealtimeValue 0, DrvWrite.setMode 0,
          DrvWrite.stopPlayback]) :=
  (realtime_exit_single_zero_bracket true (22/10) ⟨true, true, 0⟩ 7 1 rfl).1
    (by norm_num [constrainR, MIN_INTENSITY_THRESHOLD]) rfl

end Sharkee
